import Mathlib

set_option maxRecDepth 8000

/- Verification development for the zen-sci latex-mcp conversion engine
   (servers/latex-mcp/engine/latex_engine.py).  The engine is shallowly
   embedded over lists of characters (Python strings) and lists of
   naturals (Python bytes); the effectful pipeline of main() is embedded
   as a function of an explicit environment describing the outcomes of
   the external operations it performs. -/

/- Substring machinery mirroring the Python operators used by the engine:
   `pat in s` (substring test), `s.startswith(pat)` and `s.find(pat)`. -/

def isStart {α : Type*} [DecidableEq α] : List α → List α → Bool
  | [], _ => true
  | _ :: _, [] => false
  | a :: p, b :: l => if a = b then isStart p l else false

def occurs {α : Type*} [DecidableEq α] (pat : List α) : List α → Bool
  | [] => pat.isEmpty
  | b :: l => isStart pat (b :: l) || occurs pat l

def IsStart {α : Type*} (pat l : List α) : Prop := ∃ t, l = pat ++ t

def IsEnd {α : Type*} (pat l : List α) : Prop := ∃ t, l = t ++ pat

def Occurs {α : Type*} (pat l : List α) : Prop := ∃ u v, l = u ++ (pat ++ v)

theorem isStart_iff {α : Type*} [DecidableEq α] :
    ∀ {pat l : List α}, isStart pat l = true ↔ IsStart pat l := by
  intro pat
  induction pat with
  | nil =>
    intro l
    simp only [isStart, IsStart, List.nil_append, true_iff]
    exact ⟨l, rfl⟩
  | cons a p ih =>
    intro l
    cases l with
    | nil =>
      simp only [isStart, IsStart]
      constructor
      · intro h; cases h
      · rintro ⟨t, ht⟩; cases ht
    | cons b m =>
      simp only [isStart]
      by_cases hab : a = b
      · subst hab
        rw [if_pos rfl, ih]
        constructor
        · rintro ⟨t, rfl⟩; exact ⟨t, by simp⟩
        · rintro ⟨t, ht⟩
          rw [List.cons_append] at ht
          injection ht with _ h2
          exact ⟨t, h2⟩
      · rw [if_neg hab]
        constructor
        · intro h; cases h
        · rintro ⟨t, ht⟩
          rw [List.cons_append] at ht
          injection ht with h1 _
          exact absurd h1.symm hab

instance {α : Type*} [DecidableEq α] (pat l : List α) : Decidable (IsStart pat l) :=
  decidable_of_iff _ isStart_iff

theorem Occurs_cons {α : Type*} {pat : List α} {b : α} {l : List α} :
    Occurs pat (b :: l) ↔ IsStart pat (b :: l) ∨ Occurs pat l := by
  constructor
  · rintro ⟨u, v, h⟩
    cases u with
    | nil =>
      left
      exact ⟨v, by simpa using h⟩
    | cons c u' =>
      right
      rw [List.cons_append] at h
      injection h with _ h2
      exact ⟨u', v, h2⟩
  · rintro (⟨t, ht⟩ | ⟨u, v, h⟩)
    · exact ⟨[], t, by simpa using ht⟩
    · exact ⟨b :: u, v, by simp [h]⟩

theorem occurs_iff {α : Type*} [DecidableEq α] :
    ∀ {l pat : List α}, occurs pat l = true ↔ Occurs pat l := by
  intro l
  induction l with
  | nil =>
    intro pat
    simp only [occurs, List.isEmpty_iff]
    constructor
    · rintro rfl; exact ⟨[], [], rfl⟩
    · rintro ⟨u, v, h⟩
      rcases List.append_eq_nil.1 h.symm with ⟨rfl, h2⟩
      rcases List.append_eq_nil.1 h2 with ⟨rfl, rfl⟩
      rfl
  | cons b m ih =>
    intro pat
    simp only [occurs, Bool.or_eq_true, isStart_iff, ih, Occurs_cons]

instance {α : Type*} [DecidableEq α] (pat l : List α) : Decidable (Occurs pat l) :=
  decidable_of_iff _ occurs_iff

theorem occurs_self {α : Type*} (l : List α) : Occurs l l :=
  ⟨[], [], by simp⟩

theorem occurs_append_left {α : Type*} {pat u : List α} (w : List α)
    (h : Occurs pat u) : Occurs pat (u ++ w) := by
  obtain ⟨a, b, rfl⟩ := h
  exact ⟨a, b ++ w, by simp⟩

theorem occurs_append_right {α : Type*} {pat v : List α} (u : List α)
    (h : Occurs pat v) : Occurs pat (u ++ v) := by
  obtain ⟨a, b, rfl⟩ := h
  exact ⟨u ++ a, b, by simp⟩

theorem occurs_append_split {α : Type*} {pat u v : List α} (h : Occurs pat (u ++ v)) :
    Occurs pat u ∨ Occurs pat v ∨
      ∃ p₁ p₂, pat = p₁ ++ p₂ ∧ p₁ ≠ [] ∧ p₂ ≠ [] ∧ IsEnd p₁ u ∧ IsStart p₂ v := by
  obtain ⟨a, b, hab⟩ := h
  by_cases h1 : a.length + pat.length ≤ u.length
  · left
    have e3 : (a ++ pat) ++ b =
        u.take (a.length + pat.length) ++ (u.drop (a.length + pat.length) ++ v) := by
      rw [← List.append_assoc, List.take_append_drop, List.append_assoc]
      exact hab.symm
    have hlen : (a ++ pat).length = (u.take (a.length + pat.length)).length := by
      simp only [List.length_append, List.length_take]
      omega
    obtain ⟨h4, _⟩ := List.append_inj e3 hlen
    refine ⟨a, u.drop (a.length + pat.length), ?_⟩
    conv_lhs => rw [← List.take_append_drop (a.length + pat.length) u]
    rw [← h4, List.append_assoc]
  · by_cases h2 : u.length ≤ a.length
    · right; left
      have e3 : u ++ v = a.take u.length ++ (a.drop u.length ++ (pat ++ b)) := by
        rw [← List.append_assoc, List.take_append_drop]
        exact hab
      have hlen : u.length = (a.take u.length).length := by
        simp only [List.length_take]
        omega
      obtain ⟨_, h5⟩ := List.append_inj e3 hlen
      exact ⟨a.drop u.length, b, h5⟩
    · right; right
      have hk1 : 0 < u.length - a.length := by omega
      have hk2 : u.length - a.length < pat.length := by omega
      have e3 : u ++ v = (a ++ pat.take (u.length - a.length)) ++
          (pat.drop (u.length - a.length) ++ b) := by
        rw [hab]
        conv_lhs => rw [← List.take_append_drop (u.length - a.length) pat]
        simp only [List.append_assoc]
      have hlen : u.length = (a ++ pat.take (u.length - a.length)).length := by
        simp only [List.length_append, List.length_take]
        omega
      obtain ⟨h4, h5⟩ := List.append_inj e3 hlen
      refine ⟨pat.take (u.length - a.length), pat.drop (u.length - a.length),
        (List.take_append_drop _ pat).symm, ?_, ?_, ⟨a, h4⟩, ⟨b, h5⟩⟩
      · intro hnil
        have := congrArg List.length hnil
        simp only [List.length_take, List.length_nil] at this
        omega
      · intro hnil
        have := congrArg List.length hnil
        simp only [List.length_drop, List.length_nil] at this
        omega

/- The first index of an occurrence, mirroring Python str.find (the engine
   only uses the found index to slice, so the result is an Option Nat). -/

def firstIdx {α : Type*} [DecidableEq α] (pat : List α) : List α → Option Nat
  | [] => if pat.isEmpty then some 0 else none
  | b :: l => if isStart pat (b :: l) then some 0 else (firstIdx pat l).map (· + 1)

theorem firstIdx_drop {α : Type*} [DecidableEq α] :
    ∀ {l pat : List α} {i : Nat}, firstIdx pat l = some i → IsStart pat (l.drop i) := by
  intro l
  induction l with
  | nil =>
    intro pat i h
    simp only [firstIdx] at h
    split at h
    · injection h with h0
      subst h0
      rename_i hemp
      rw [List.isEmpty_iff] at hemp
      subst hemp
      exact ⟨[], rfl⟩
    · cases h
  | cons b m ih =>
    intro pat i h
    simp only [firstIdx] at h
    split at h
    · injection h with h0
      subst h0
      rename_i hst
      exact isStart_iff.1 hst
    · rcases Option.map_eq_some'.1 h with ⟨j, hj, rfl⟩
      exact ih hj

theorem firstIdx_none {α : Type*} [DecidableEq α] :
    ∀ {l pat : List α}, firstIdx pat l = none → ¬ Occurs pat l := by
  intro l
  induction l with
  | nil =>
    intro pat h
    simp only [firstIdx] at h
    split at h
    · cases h
    · rename_i hemp
      rintro ⟨u, v, huv⟩
      rcases List.append_eq_nil.1 huv.symm with ⟨rfl, h2⟩
      rcases List.append_eq_nil.1 h2 with ⟨rfl, rfl⟩
      simp at hemp
  | cons b m ih =>
    intro pat h
    simp only [firstIdx] at h
    split at h
    · cases h
    · rename_i hst
      rw [Option.map_eq_none'] at h
      intro hocc
      rcases Occurs_cons.1 hocc with h1 | h2
      · exact hst (isStart_iff.2 h1)
      · exact ih h h2

theorem occurs_firstIdx {α : Type*} [DecidableEq α] {l pat : List α}
    (h : Occurs pat l) : ∃ i, firstIdx pat l = some i := by
  cases hf : firstIdx pat l with
  | none => exact absurd h (firstIdx_none hf)
  | some i => exact ⟨i, rfl⟩

theorem occurs_of_firstIdx {α : Type*} [DecidableEq α] {l pat : List α} {i : Nat}
    (h : firstIdx pat l = some i) : Occurs pat l := by
  obtain ⟨t, ht⟩ := firstIdx_drop h
  exact ⟨l.take i, t, by rw [← ht, List.take_append_drop]⟩

/- Metadata Injector (latex_engine.py lines 87-115).  Each declaration is
   spliced in immediately before the first occurrence of the document-start
   marker, followed by a newline; the title and the required packages are
   skipped when the corresponding canonical substring is already present,
   the custom preamble is inserted unconditionally. -/

def docMarker : List Char := "\\begin\x7bdocument\x7d".toList

def titleMark : List Char := "\\title\x7b".toList

def titleDecl (t : List Char) : List Char := titleMark ++ (t ++ "\x7d".toList)

def pkgDecl (p : List Char) : List Char :=
  "\\usepackage\x7b".toList ++ (p ++ "\x7d".toList)

def requiredPkgs : List (List Char) :=
  ["microtype".toList, "hyperref".toList, "bookmark".toList]

def injectBefore (doc ins : List Char) : List Char :=
  match firstIdx docMarker doc with
  | some i => doc.take i ++ (ins ++ ('\n' :: doc.drop i))
  | none => doc

def truthyOpt : Option (List Char) → Bool
  | some s => !s.isEmpty
  | none => false

def injectPreamble (pre : Option (List Char)) (doc : List Char) : List Char :=
  match pre with
  | some p => if p.isEmpty then doc else injectBefore doc p
  | none => doc

def injectTitle (t : Option (List Char)) (doc : List Char) : List Char :=
  match t with
  | some s =>
    if s.isEmpty then doc
    else if Occurs titleMark doc then doc
    else injectBefore doc (titleDecl s)
  | none => doc

def injectPkg (doc p : List Char) : List Char :=
  if Occurs (pkgDecl p) doc then doc else injectBefore doc (pkgDecl p)

def injectPkgs (doc : List Char) : List Char :=
  List.foldl injectPkg doc requiredPkgs

def injectMetadata (pre t : Option (List Char)) (doc : List Char) : List Char :=
  injectPkgs (injectTitle t (injectPreamble pre doc))

theorem injectBefore_of_none {doc : List Char} (ins : List Char)
    (h : firstIdx docMarker doc = none) : injectBefore doc ins = doc := by
  simp [injectBefore, h]

theorem occurs_injectBefore {pat ins doc : List Char}
    (hp : '\\' ∉ pat.drop 1) (h : Occurs pat doc) :
    Occurs pat (injectBefore doc ins) := by
  unfold injectBefore
  cases hf : firstIdx docMarker doc with
  | none => exact h
  | some i =>
    have hm : IsStart docMarker (doc.drop i) := firstIdx_drop hf
    rw [← List.take_append_drop i doc] at h
    rcases occurs_append_split h with h1 | h2 | ⟨p₁, p₂, hpat, hp1, hp2, _, hs⟩
    · exact occurs_append_left _ h1
    · exact occurs_append_right _ (occurs_append_right _
        (occurs_append_right ['\n'] h2))
    · exfalso
      cases p₂ with
      | nil => exact hp2 rfl
      | cons c r =>
        obtain ⟨t, ht⟩ := hs
        obtain ⟨t', ht'⟩ := hm
        rw [ht'] at ht
        have hdm : docMarker = '\\' :: "begin\x7bdocument\x7d".toList := rfl
        rw [hdm, List.cons_append, List.cons_append] at ht
        injection ht with hc _
        cases p₁ with
        | nil => exact hp1 rfl
        | cons d p₁' =>
          apply hp
          rw [hpat, List.cons_append, List.drop_one, List.tail_cons, hc]
          exact List.mem_append_right _ (List.mem_cons_self c r)

theorem occurs_injectBefore_ins {pat ins doc : List Char} {i : Nat}
    (hf : firstIdx docMarker doc = some i) (h : Occurs pat ins) :
    Occurs pat (injectBefore doc ins) := by
  simp only [injectBefore, hf]
  exact occurs_append_right _ (occurs_append_left _ h)

theorem hp_docMarker : '\\' ∉ docMarker.drop 1 := by decide

theorem hp_titleMark : '\\' ∉ titleMark.drop 1 := by decide

theorem hp_titleDecl {s : List Char} (h : '\\' ∉ s) : '\\' ∉ (titleDecl s).drop 1 := by
  intro hc
  have he : (titleDecl s).drop 1 = "title\x7b".toList ++ (s ++ "\x7d".toList) := rfl
  rw [he] at hc
  rcases List.mem_append.1 hc with h1 | h2
  · exact absurd h1 (by decide)
  · rcases List.mem_append.1 h2 with h3 | h4
    · exact h h3
    · exact absurd h4 (by decide)

theorem hp_pkgDecl {p : List Char} (h : '\\' ∉ p) : '\\' ∉ (pkgDecl p).drop 1 := by
  intro hc
  have he : (pkgDecl p).drop 1 = "usepackage\x7b".toList ++ (p ++ "\x7d".toList) := rfl
  rw [he] at hc
  rcases List.mem_append.1 hc with h1 | h2
  · exact absurd h1 (by decide)
  · rcases List.mem_append.1 h2 with h3 | h4
    · exact h h3
    · exact absurd h4 (by decide)

theorem injectTitle_of_none {t : Option (List Char)} {doc : List Char}
    (hf : firstIdx docMarker doc = none) : injectTitle t doc = doc := by
  cases t with
  | none => rfl
  | some s =>
    simp only [injectTitle]
    split
    · rfl
    · split
      · rfl
      · exact injectBefore_of_none _ hf

theorem injectPkg_of_none {doc p : List Char}
    (hf : firstIdx docMarker doc = none) : injectPkg doc p = doc := by
  unfold injectPkg
  split
  · rfl
  · exact injectBefore_of_none _ hf

theorem injectPkgs_of_none {doc : List Char}
    (hf : firstIdx docMarker doc = none) : injectPkgs doc = doc := by
  simp only [injectPkgs, requiredPkgs, List.foldl_cons, List.foldl_nil,
    injectPkg_of_none hf]

theorem marker_injectTitle {t : Option (List Char)} {doc : List Char}
    (hm : Occurs docMarker doc) : Occurs docMarker (injectTitle t doc) := by
  cases t with
  | none => exact hm
  | some s =>
    simp only [injectTitle]
    split
    · exact hm
    · split
      · exact hm
      · exact occurs_injectBefore hp_docMarker hm

theorem marker_injectPkg {doc p : List Char}
    (hm : Occurs docMarker doc) : Occurs docMarker (injectPkg doc p) := by
  unfold injectPkg
  split
  · exact hm
  · exact occurs_injectBefore hp_docMarker hm

theorem occurs_injectPkg {pat doc p : List Char}
    (hp : '\\' ∉ pat.drop 1) (h : Occurs pat doc) : Occurs pat (injectPkg doc p) := by
  unfold injectPkg
  split
  · exact h
  · exact occurs_injectBefore hp h

theorem injectPkg_self {doc p : List Char}
    (hm : Occurs docMarker doc) : Occurs (pkgDecl p) (injectPkg doc p) := by
  unfold injectPkg
  split
  · assumption
  · obtain ⟨i, hf⟩ := occurs_firstIdx hm
    exact occurs_injectBefore_ins hf (occurs_self _)

theorem titleMark_injectTitle {s : List Char} {doc : List Char}
    (hm : Occurs docMarker doc) (hs : ¬ s.isEmpty = true) :
    Occurs titleMark (injectTitle (some s) doc) := by
  simp only [injectTitle]
  rw [if_neg hs]
  split
  · assumption
  · obtain ⟨i, hf⟩ := occurs_firstIdx hm
    exact occurs_injectBefore_ins hf ⟨[], s ++ "\x7d".toList, by simp [titleDecl]⟩

theorem injectPkgs_unfold (d : List Char) :
    injectPkgs d = injectPkg (injectPkg (injectPkg d ("microtype".toList))
      ("hyperref".toList)) ("bookmark".toList) := by
  simp only [injectPkgs, requiredPkgs, List.foldl_cons, List.foldl_nil]

theorem injectTitle_id_of_occurs {t : Option (List Char)} {D : List Char}
    (h : ∀ s, t = some s → s.isEmpty = false → Occurs titleMark D) :
    injectTitle t D = D := by
  cases t with
  | none => rfl
  | some s =>
    simp only [injectTitle]
    by_cases hs : s.isEmpty = true
    · rw [if_pos hs]
    · rw [if_neg hs, if_pos (h s rfl (by simpa using hs))]

theorem injectPkg_id {d p : List Char} (h : Occurs (pkgDecl p) d) :
    injectPkg d p = d := by
  simp only [injectPkg]
  rw [if_pos h]

theorem injectPkgs_id {d : List Char}
    (h1 : Occurs (pkgDecl ("microtype".toList)) d)
    (h2 : Occurs (pkgDecl ("hyperref".toList)) d)
    (h3 : Occurs (pkgDecl ("bookmark".toList)) d) : injectPkgs d = d := by
  rw [injectPkgs_unfold, injectPkg_id h1, injectPkg_id h2, injectPkg_id h3]

/-- C2 (amended): the Metadata Injector is idempotent whenever no custom
preamble is supplied: on a second run the title and the required-package
declarations are skipped because their canonical substrings are already
present.  (With a truthy custom preamble idempotence fails, because the
preamble insertion at lines 88-93 of latex_engine.py carries no
already-present check; see the counterexample.) -/
theorem injectMetadata_idem (pre t : Option (List Char)) (doc : List Char)
    (hpre : truthyOpt pre = false) :
    injectMetadata pre t (injectMetadata pre t doc) = injectMetadata pre t doc := by
  have hpre_id : ∀ d, injectPreamble pre d = d := by
    intro d
    cases pre with
    | none => rfl
    | some p =>
      have hp' : p.isEmpty = true := by
        have hb : (!p.isEmpty) = false := hpre
        simpa using hb
      simp [injectPreamble, hp']
  unfold injectMetadata
  rw [hpre_id, hpre_id]
  cases hf : firstIdx docMarker doc with
  | none =>
    rw [injectTitle_of_none hf, injectPkgs_of_none hf, injectTitle_of_none hf,
      injectPkgs_of_none hf]
  | some i =>
    have hM : Occurs docMarker doc := occurs_of_firstIdx hf
    have hm1 : Occurs docMarker (injectTitle t doc) := marker_injectTitle hM
    have hpm : '\\' ∉ (pkgDecl ("microtype".toList)).drop 1 := hp_pkgDecl (by decide)
    have hph : '\\' ∉ (pkgDecl ("hyperref".toList)).drop 1 := hp_pkgDecl (by decide)
    have hm2 : Occurs docMarker (injectPkg (injectTitle t doc) ("microtype".toList)) :=
      marker_injectPkg hm1
    have hm3 : Occurs docMarker (injectPkg (injectPkg (injectTitle t doc)
        ("microtype".toList)) ("hyperref".toList)) := marker_injectPkg hm2
    have hQ1 : Occurs (pkgDecl ("microtype".toList)) (injectPkgs (injectTitle t doc)) := by
      rw [injectPkgs_unfold]
      exact occurs_injectPkg hpm (occurs_injectPkg hpm (injectPkg_self hm1))
    have hQ2 : Occurs (pkgDecl ("hyperref".toList)) (injectPkgs (injectTitle t doc)) := by
      rw [injectPkgs_unfold]
      exact occurs_injectPkg hph (injectPkg_self hm2)
    have hQ3 : Occurs (pkgDecl ("bookmark".toList)) (injectPkgs (injectTitle t doc)) := by
      rw [injectPkgs_unfold]
      exact injectPkg_self hm3
    have hT2 : ∀ s, t = some s → s.isEmpty = false →
        Occurs titleMark (injectPkgs (injectTitle t doc)) := by
      intro s hts hs
      subst hts
      rw [injectPkgs_unfold]
      exact occurs_injectPkg hp_titleMark (occurs_injectPkg hp_titleMark
        (occurs_injectPkg hp_titleMark (titleMark_injectTitle hM (by simp [hs]))))
    rw [injectTitle_id_of_occurs hT2, injectPkgs_id hQ1 hQ2 hQ3]

def c2doc : List Char :=
  "\\documentclass\x7barticle\x7d\n\\begin\x7bdocument\x7d\nBody\n\\end\x7bdocument\x7d".toList

def c2preamble : List Char := "\\usepackage\x7bxcolor\x7d".toList

/-- C2 counterexample: with a truthy custom preamble the Metadata Injector is
not idempotent — re-running it on its own output splices the preamble in a
second time, because the preamble branch performs no already-present check. -/
theorem injectMetadata_not_idem :
    injectMetadata (some c2preamble) none
        (injectMetadata (some c2preamble) none c2doc)
      ≠ injectMetadata (some c2preamble) none c2doc := by
  decide

/-- C2 witness: concrete instantiation of the amended idempotence theorem at a
document with a document-start marker, a truthy title and no custom preamble. -/
theorem injectMetadata_idem_witness :
    injectMetadata none (some ("Demo".toList))
        (injectMetadata none (some ("Demo".toList)) c2doc)
      = injectMetadata none (some ("Demo".toList)) c2doc :=
  injectMetadata_idem none (some ("Demo".toList)) c2doc rfl

/- Fallback Markup Normalizer (latex_engine.py lines 178-219,
   basic_md_to_latex): fixed preamble, optional custom preamble, title and
   author block from the frontmatter, then a per-line body translation of
   the stripped source lines. -/

def pySpace (c : Char) : Bool :=
  (c == ' ') || (c == '\t') || (c == '\n') || (c == '\r') ||
    (c == '\x0b') || (c == '\x0c')

def pyStrip (l : List Char) : List Char :=
  ((l.dropWhile pySpace).reverse.dropWhile pySpace).reverse

def wcAux : List Char → Bool → Nat
  | [], _ => 0
  | c :: t, inw =>
    if pySpace c then wcAux t false
    else (if inw then 0 else 1) + wcAux t true

def wordCount (l : List Char) : Nat := wcAux l false

def processLine (s : List Char) : Option (List Char) :=
  if IsStart ("# ".toList) s then
    some ("\\section\x7b".toList ++ (s.drop 2 ++ "\x7d".toList))
  else if IsStart ("## ".toList) s then
    some ("\\subsection\x7b".toList ++ (s.drop 3 ++ "\x7d".toList))
  else if IsStart ("### ".toList) s then
    some ("\\subsubsection\x7b".toList ++ (s.drop 4 ++ "\x7d".toList))
  else if IsStart ("---".toList) s then none
  else if ':' ∈ s ∧ wordCount (s.takeWhile (fun c => c != ':')) ≤ 2 then none
  else if s.isEmpty then none
  else some s

inductive AuthorVal where
  | str (s : List Char)
  | list (l : List (List Char))
deriving DecidableEq

structure Frontmatter where
  title : Option (List Char)
  author : Option AuthorVal
deriving DecidableEq

def truthyAuthor : Option AuthorVal → Bool
  | none => false
  | some (AuthorVal.str s) => !s.isEmpty
  | some (AuthorVal.list l) => !l.isEmpty

def authorSep : List Char := " \\\\and ".toList

def authorBlock : AuthorVal → List Char
  | AuthorVal.list l => "\\author\x7b".toList ++ (List.intercalate authorSep l ++ "\x7d".toList)
  | AuthorVal.str s => "\\author\x7b".toList ++ (s ++ "\x7d".toList)

def basicLines (source : List Char) (fm : Frontmatter)
    (preamble : Option (List Char)) : List (List Char) :=
  ["\\documentclass\x7barticle\x7d".toList,
   "\\usepackage[utf8]\x7binputenc\x7d".toList,
   "\\usepackage\x7bamsmath\x7d".toList,
   "\\usepackage\x7bhyperref\x7d".toList]
  ++ (if truthyOpt preamble then [preamble.getD []] else [])
  ++ ["\\begin\x7bdocument\x7d".toList]
  ++ (if truthyOpt fm.title then
        [titleMark ++ ((fm.title.getD []) ++ "\x7d".toList)] else [])
  ++ (if truthyAuthor fm.author then
        [authorBlock (fm.author.getD (AuthorVal.str []))] else [])
  ++ (if truthyOpt fm.title then ["\\maketitle".toList] else [])
  ++ ((source.splitOn '\n').filterMap (fun ln => processLine (pyStrip ln)))
  ++ ["\\end\x7bdocument\x7d".toList]

def basic_md_to_latex (source : List Char) (fm : Frontmatter)
    (preamble : Option (List Char)) : List Char :=
  List.intercalate ['\n'] (basicLines source fm preamble)

/- Claim-side predicates for C7, written from the wording of the spec:
   a line consisting solely of three or more hyphen characters, and a
   line of "key: value" shape whose key has at most two words. -/

def isSolelyHRule (l : List Char) : Bool :=
  decide (3 ≤ l.length) && l.all (fun c => c == '-')

def isKeyValShape (l : List Char) : Bool :=
  l.contains ':' && decide (wordCount (l.takeWhile (fun c => c != ':')) ≤ 2)

/-- C7 counterexample: the stripped line "---note" is neither solely a
horizontal-rule marker nor of key-value shape, is non-blank and is not a
heading, yet the body rules drop it (the code tests startswith on three
hyphens, not a whole-line match), where the claim says it is passed through
into the body. -/
theorem processLine_dashes_cx :
    processLine ("---note".toList) = none ∧
    isSolelyHRule ("---note".toList) = false ∧
    isKeyValShape ("---note".toList) = false ∧
    ("---note".toList).isEmpty = false ∧
    ¬ IsStart ("# ".toList) ("---note".toList) ∧
    ¬ IsStart ("## ".toList) ("---note".toList) ∧
    ¬ IsStart ("### ".toList) ("---note".toList) := by
  decide

/-- C7 (amended): a stripped, non-blank line that is not a depth-1..3 heading
is dropped exactly when it starts with three hyphen characters (whether or not
further text follows) or contains a colon with at most two words before the
first colon; every other such line is passed through unescaped. -/
theorem processLine_amended (l : List Char)
    (h1 : ¬ IsStart ("# ".toList) l) (h2 : ¬ IsStart ("## ".toList) l)
    (h3 : ¬ IsStart ("### ".toList) l) (h4 : l ≠ []) :
    processLine l = if IsStart ("---".toList) l ∨
        (':' ∈ l ∧ wordCount (l.takeWhile (fun c => c != ':')) ≤ 2)
      then none else some l := by
  simp only [processLine, if_neg h1, if_neg h2, if_neg h3]
  by_cases hd : IsStart ("---".toList) l
  · rw [if_pos hd, if_pos (Or.inl hd)]
  · rw [if_neg hd]
    by_cases hk : ':' ∈ l ∧ wordCount (l.takeWhile (fun c => c != ':')) ≤ 2
    · rw [if_pos hk, if_pos (Or.inr hk)]
    · have hor : ¬ (IsStart ("---".toList) l ∨
          (':' ∈ l ∧ wordCount (l.takeWhile (fun c => c != ':')) ≤ 2)) := by
        tauto
      have hle : ¬ ((l.isEmpty) = true) := by
        simpa [List.isEmpty_iff] using h4
      rw [if_neg hk, if_neg hor, if_neg hle]

/-- C7 witness: concrete instantiation of the amended body-rule theorem at a
plain body line, which is passed through unescaped. -/
theorem processLine_amended_witness :
    processLine ("Body text.".toList) = (if IsStart ("---".toList) ("Body text.".toList) ∨
        (':' ∈ ("Body text.".toList) ∧
          wordCount (("Body text.".toList).takeWhile (fun c => c != ':')) ≤ 2)
      then none else some ("Body text.".toList)) :=
  processLine_amended ("Body text.".toList) (by decide) (by decide) (by decide) (by decide)

/-- C6 counterexample: for the singleton author list whose single name is the
list-join separator string itself, the generated author block does contain the
separator, so the claim as stated fails on that input. -/
theorem authorBlock_sep_cx :
    Occurs authorSep (authorBlock (AuthorVal.list [authorSep])) := by
  decide

/-- C6 (amended): for a singleton author list the generated author block is
exactly the author command wrapping the single name — the join inserts no
separator — and the block contains the list-join separator only if the author
name itself contains it.  Joining is total for every author list. -/
theorem authorBlock_singleton (a : List Char) :
    authorBlock (AuthorVal.list [a]) = "\\author\x7b".toList ++ (a ++ "\x7d".toList) ∧
    (¬ Occurs authorSep a → ¬ Occurs authorSep (authorBlock (AuthorVal.list [a]))) := by
  have hb : authorBlock (AuthorVal.list [a]) =
      "\\author\x7b".toList ++ (a ++ "\x7d".toList) := by
    simp [authorBlock, List.intercalate]
  refine ⟨hb, ?_⟩
  intro hna hocc
  rw [hb] at hocc
  rcases occurs_append_split hocc with h1 | h2 | ⟨p₁, p₂, hpat, hp1, hp2, he, _⟩
  · exact absurd h1 (by decide)
  · rcases occurs_append_split h2 with h3 | h4 | ⟨q₁, q₂, hq, _, hq2, _, hs2⟩
    · exact hna h3
    · exact absurd h4 (by decide)
    · cases q₂ with
      | nil => exact hq2 rfl
      | cons c r =>
        obtain ⟨t, ht⟩ := hs2
        have hc : c = '}' := by
          have hh : ('}' : Char) :: ([] : List Char) = c :: (r ++ t) := by
            simpa using ht
          injection hh with hh1 _
          exact hh1.symm
        subst hc
        have hmem : '}' ∈ authorSep := by
          rw [hq]
          exact List.mem_append_right _ (List.mem_cons_self _ _)
        exact absurd hmem (by decide)
  · cases p₁ with
    | nil => exact hp1 rfl
    | cons d p₁' =>
      have h0 : authorSep = d :: (p₁' ++ p₂) := by
        rw [hpat, List.cons_append]
      have hd : d = ' ' := by
        have h1 : (' ' : Char) :: "\\\\and ".toList = d :: (p₁' ++ p₂) := by
          rw [← h0]
          decide
        injection h1 with h2 _
        exact h2.symm
      subst hd
      obtain ⟨t, ht⟩ := he
      have hmem : ' ' ∈ "\\author\x7b".toList := by
        rw [ht]
        exact List.mem_append_right _ (List.mem_cons_self _ _)
      exact absurd hmem (by decide)

/-- C6 witness: concrete instantiation of the amended author-block theorem at
a singleton author list with an ordinary name. -/
theorem authorBlock_singleton_witness :
    authorBlock (AuthorVal.list [("Ada Lovelace".toList)]) =
      "\\author\x7b".toList ++ ("Ada Lovelace".toList ++ "\x7d".toList) ∧
    ¬ Occurs authorSep (authorBlock (AuthorVal.list [("Ada Lovelace".toList)])) :=
  ⟨(authorBlock_singleton ("Ada Lovelace".toList)).1,
    (authorBlock_singleton ("Ada Lovelace".toList)).2 (by decide)⟩

/- Pipeline embedding of main() (latex_engine.py lines 24-175).  The
   effectful boundary is made explicit in an environment: the outcome of
   JSON-decoding stdin, whether creating the temporary workspace or writing
   the source and bibliography files raises, the outcome of the pypandoc
   conversion, whether the pdflatex binary is present, the outcome of each
   compilation pass, and the bytes of the output artifact file if it exists
   after the passes. -/

structure Request where
  request_id : List Char
  source : List Char
  frontmatter : Frontmatter
  bibliography : Option (List Char)
  bibliography_style : List Char
  latex_preamble : Option (List Char)
deriving DecidableEq

inductive PandocOutcome where
  | notInstalled
  | convError (msg : List Char)
  | ok (tex : List Char)
deriving DecidableEq

inductive PassOutcome where
  | completed (returncode : Int) (stdout : List Char)
  | timedOut
deriving DecidableEq

structure Env where
  stdinParse : Except (List Char) Request
  mkdtempFails : Bool
  writeSourceFails : Bool
  writeBibFails : Bool
  pandoc : PandocOutcome
  pdflatexPresent : Bool
  pass1 : PassOutcome
  pass2 : PassOutcome
  pdfProduced : Option (List Nat)

structure Citations where
  total : Nat
  resolved : Nat
  unresolved : List (List Char)
deriving DecidableEq

structure SuccessResponse where
  latex_source : List Char
  warnings : List (List Char)
  citations : Citations
  pdf_base64 : Option (List Char)
  page_count : Option Int
deriving DecidableEq

structure ErrorResponse where
  code : List Char
  message : List Char
  details : Option (List Char)
deriving DecidableEq

inductive Output where
  | result (r : SuccessResponse)
  | error (e : ErrorResponse)
  | uncaught
deriving DecidableEq

structure RunResult where
  output : Output
  workspaceCreated : Bool
  conversionRun : Bool
  passesAttempted : Nat
deriving DecidableEq

/- base64.b64encode over the artifact bytes. -/

def b64Table : List Char :=
  "ABCDEFGHIJKLMNOPQRSTUVWXYZabcdefghijklmnopqrstuvwxyz0123456789+/".toList

def b64c (n : Nat) : Char := b64Table.getD n '='

def base64Encode : List Nat → List Char
  | [] => []
  | [a] => [b64c (a / 4), b64c (a % 4 * 16), '=', '=']
  | [a, b] => [b64c (a / 4), b64c (a % 4 * 16 + b / 16), b64c (b % 16 * 4), '=']
  | a :: b :: c :: rest =>
    b64c (a / 4) :: b64c (a % 4 * 16 + b / 16) :: b64c (b % 16 * 4 + c / 64) ::
      b64c (c % 64) :: base64Encode rest

/- bytes.count over the artifact: the number of non-overlapping occurrences
   of a pattern, scanning left to right (Python semantics). -/

def countSubAux (pat : List Nat) : List Nat → Nat → Nat
  | [], _ => 0
  | _ :: t, skip + 1 => countSubAux pat t skip
  | b :: t, 0 =>
    if isStart pat (b :: t) then 1 + countSubAux pat t (pat.length - 1)
    else countSubAux pat t 0

def countSub (pat hay : List Nat) : Nat := countSubAux pat hay 0

def pageObjMarker : List Nat := ("/Type /Page".toList).map Char.toNat

def pagesMarker : List Nat := ("/Type /Pages".toList).map Char.toNat

def pageCount (content : List Nat) : Int :=
  let d : Int := (countSub pageObjMarker content : Int) - (countSub pagesMarker content : Int)
  if d ≤ 0 then 1 else d

/- The literal messages written by the engine. -/

def jsonFailCode : List Char := "json-parse-failed".toList

def invalidJsonPre : List Char := "Invalid JSON input: ".toList

def msgPandocMissing : List Char := "pypandoc not installed; using basic conversion".toList

def msgPandocErrPre : List Char := "pypandoc conversion warning: ".toList

def msgToolMissing : List Char := "pdflatex not found; returning LaTeX source only".toList

def msgTimeout : List Char := "pdflatex compilation timed out (60s)".toList

def msgNoPdf : List Char := "PDF file was not produced".toList

def lastN (n : Nat) (l : List Char) : List Char := l.drop (l.length - n)

def passWarn (out : List Char) : List Char :=
  "pdflatex warning: ".toList ++ (if out.isEmpty then "no output".toList else lastN 500 out)

/- Conversion Strategy Selector (lines 60-81): rich conversion when pypandoc
   succeeds, otherwise the fallback Normalizer plus a warning. -/

def conversionPair (env : Env) (req : Request) : List Char × List (List Char) :=
  match env.pandoc with
  | PandocOutcome.ok tex => (tex, [])
  | PandocOutcome.notInstalled =>
    (basic_md_to_latex req.source req.frontmatter req.latex_preamble, [msgPandocMissing])
  | PandocOutcome.convError m =>
    (basic_md_to_latex req.source req.frontmatter req.latex_preamble, [msgPandocErrPre ++ m])

def genDoc (env : Env) (req : Request) : List Char :=
  injectMetadata req.latex_preamble req.frontmatter.title (conversionPair env req).1

/- Compilation Driver (lines 121-155): two passes under try, FileNotFoundError
   and TimeoutExpired short-circuit, artifact check and page count after. -/

structure CompileOut where
  warns : List (List Char)
  pdf : Option (List Char)
  pages : Option Int
  passes : Nat
deriving DecidableEq

def compileStage (env : Env) : CompileOut :=
  if env.pdflatexPresent then
    match env.pass1 with
    | PassOutcome.timedOut =>
      { warns := [msgTimeout], pdf := none, pages := none, passes := 1 }
    | PassOutcome.completed rc1 out1 =>
      let w1 : List (List Char) := if rc1 ≠ 0 then [passWarn out1] else []
      match env.pass2 with
      | PassOutcome.timedOut =>
        { warns := w1 ++ [msgTimeout], pdf := none, pages := none, passes := 2 }
      | PassOutcome.completed rc2 out2 =>
        let w2 : List (List Char) := if rc2 ≠ 0 then [passWarn out2] else []
        match env.pdfProduced with
        | some content =>
          { warns := w1 ++ w2, pdf := some (base64Encode content),
            pages := some (pageCount content), passes := 2 }
        | none =>
          { warns := w1 ++ w2 ++ [msgNoPdf], pdf := none, pages := none, passes := 2 }
  else
    { warns := [msgToolMissing], pdf := none, pages := none, passes := 0 }

def emptyCitations : Citations := { total := 0, resolved := 0, unresolved := [] }

def runMain (env : Env) : RunResult :=
  match env.stdinParse with
  | Except.error m =>
    { output := Output.error
        { code := jsonFailCode, message := invalidJsonPre ++ m, details := none },
      workspaceCreated := false, conversionRun := false, passesAttempted := 0 }
  | Except.ok req =>
    if env.mkdtempFails then
      { output := Output.uncaught, workspaceCreated := false, conversionRun := false,
        passesAttempted := 0 }
    else if env.writeSourceFails then
      { output := Output.uncaught, workspaceCreated := true, conversionRun := false,
        passesAttempted := 0 }
    else if truthyOpt req.bibliography && env.writeBibFails then
      { output := Output.uncaught, workspaceCreated := true, conversionRun := false,
        passesAttempted := 0 }
    else
      let conv := conversionPair env req
      let co := compileStage env
      { output := Output.result
          { latex_source := genDoc env req,
            warnings := conv.2 ++ co.warns,
            citations := emptyCitations,
            pdf_base64 := co.pdf,
            page_count := co.pages },
        workspaceCreated := true, conversionRun := true, passesAttempted := co.passes }

def isErrorOutput : Output → Bool
  | Output.error _ => true
  | _ => false

def isResultOutput : Output → Bool
  | Output.result _ => true
  | _ => false

def outputWarnings : Output → List (List Char)
  | Output.result r => r.warnings
  | _ => []

def outputPdf : Output → Option (List Char)
  | Output.result r => r.pdf_base64
  | _ => none

def outputPages : Output → Option Int
  | Output.result r => r.page_count
  | _ => none

theorem runMain_ok (env : Env) (req : Request)
    (hp : env.stdinParse = Except.ok req)
    (h1 : env.mkdtempFails = false) (h2 : env.writeSourceFails = false)
    (h3 : (truthyOpt req.bibliography && env.writeBibFails) = false) :
    runMain env = RunResult.mk
      (Output.result (SuccessResponse.mk (genDoc env req)
        ((conversionPair env req).2 ++ (compileStage env).warns)
        emptyCitations ((compileStage env).pdf) ((compileStage env).pages)))
      true true ((compileStage env).passes) := by
  simp only [runMain, hp]
  rw [if_neg (by simp [h1]), if_neg (by simp [h2]), if_neg (by simp [h3])]

/- Concrete requests and environments used as witnesses. -/

def fmEmpty : Frontmatter := { title := none, author := none }

def reqDemo : Request :=
  { request_id := "r1".toList, source := "Hello".toList, frontmatter := fmEmpty,
    bibliography := none, bibliography_style := "apa".toList, latex_preamble := none }

def reqTiny : Request :=
  { request_id := "r2".toList, source := [], frontmatter := fmEmpty,
    bibliography := none, bibliography_style := "apa".toList, latex_preamble := none }

def envJsonErr : Env :=
  { stdinParse := Except.error ("Expecting value".toList), mkdtempFails := false,
    writeSourceFails := false, writeBibFails := false,
    pandoc := PandocOutcome.notInstalled, pdflatexPresent := false,
    pass1 := PassOutcome.completed 0 [], pass2 := PassOutcome.completed 0 [],
    pdfProduced := none }

def envMkFail : Env :=
  { stdinParse := Except.ok reqDemo, mkdtempFails := true,
    writeSourceFails := false, writeBibFails := false,
    pandoc := PandocOutcome.notInstalled, pdflatexPresent := false,
    pass1 := PassOutcome.completed 0 [], pass2 := PassOutcome.completed 0 [],
    pdfProduced := none }

def envNoTool : Env :=
  { stdinParse := Except.ok reqDemo, mkdtempFails := false,
    writeSourceFails := false, writeBibFails := false,
    pandoc := PandocOutcome.notInstalled, pdflatexPresent := false,
    pass1 := PassOutcome.completed 0 [], pass2 := PassOutcome.completed 0 [],
    pdfProduced := none }

def pdfDemo : List Nat :=
  ("%PDF /Type /Pages /Type /Page /Type /Page".toList).map Char.toNat

def envPdf : Env :=
  { stdinParse := Except.ok reqTiny, mkdtempFails := false,
    writeSourceFails := false, writeBibFails := false,
    pandoc := PandocOutcome.ok ("x".toList), pdflatexPresent := true,
    pass1 := PassOutcome.completed 0 [], pass2 := PassOutcome.completed 0 [],
    pdfProduced := some pdfDemo }

def envNoPdf : Env :=
  { stdinParse := Except.ok reqTiny, mkdtempFails := false,
    writeSourceFails := false, writeBibFails := false,
    pandoc := PandocOutcome.ok ("x".toList), pdflatexPresent := true,
    pass1 := PassOutcome.completed 3 ("err".toList), pass2 := PassOutcome.completed 0 [],
    pdfProduced := none }

def envPassFail : Env :=
  { stdinParse := Except.ok reqTiny, mkdtempFails := false,
    writeSourceFails := false, writeBibFails := false,
    pandoc := PandocOutcome.ok ("x".toList), pdflatexPresent := true,
    pass1 := PassOutcome.completed 1 ("log tail".toList), pass2 := PassOutcome.completed 0 [],
    pdfProduced := none }

def envC10 : Env :=
  { stdinParse := Except.ok reqTiny, mkdtempFails := false,
    writeSourceFails := false, writeBibFails := false,
    pandoc := PandocOutcome.ok ("x".toList), pdflatexPresent := false,
    pass1 := PassOutcome.completed 0 [], pass2 := PassOutcome.completed 0 [],
    pdfProduced := none }

/-- C9: for input that is not well-formed JSON, the response is exactly one
error object with code json-parse-failed and a message and no further keys
(no details, no latex source, warnings, citations or artifact), and no
pipeline work is performed: no workspace is created, no conversion is run
and no compilation pass is attempted. -/
theorem runMain_json_error (env : Env) (m : List Char)
    (hp : env.stdinParse = Except.error m) :
    runMain env = RunResult.mk
      (Output.error (ErrorResponse.mk jsonFailCode (invalidJsonPre ++ m) none))
      false false 0 := by
  simp only [runMain, hp]

/-- C9 witness: a concrete malformed-JSON environment. -/
theorem runMain_json_error_witness :
    runMain envJsonErr = RunResult.mk
      (Output.error (ErrorResponse.mk jsonFailCode
        (invalidJsonPre ++ ("Expecting value".toList)) none))
      false false 0 :=
  runMain_json_error envJsonErr ("Expecting value".toList) rfl

/-- C1 counterexample: when creating the temporary workspace directory raises,
the exception is not converted into a structured Failure response — mkdtemp at
line 42 runs before the try block, and the try block has only a finally
clause, so the fault escapes and the caller receives neither an error object
nor a result object. -/
theorem runMain_setup_uncaught_cx :
    (runMain envMkFail).output = Output.uncaught ∧
    isErrorOutput (runMain envMkFail).output = false ∧
    isResultOutput (runMain envMkFail).output = false := by
  decide

/-- C1 (amended): an exception during JSON decoding of the request is caught
and converted into a structured Failure response with error kind
json-parse-failed; but an exception during workspace setup (creating the
temporary directory, or writing the source or bibliography file) is not
caught at the pipeline boundary — it escapes as an unhandled fault, and on
that path the caller receives no response object at all. -/
theorem runMain_boundary :
    (∀ env m, env.stdinParse = Except.error m →
      (runMain env).output = Output.error
        (ErrorResponse.mk jsonFailCode (invalidJsonPre ++ m) none)) ∧
    (∀ env req, env.stdinParse = Except.ok req →
      (env.mkdtempFails = true ∨ env.writeSourceFails = true ∨
        (truthyOpt req.bibliography && env.writeBibFails) = true) →
      (runMain env).output = Output.uncaught) := by
  constructor
  · intro env m hp
    simp only [runMain, hp]
  · intro env req hp hfail
    simp only [runMain, hp]
    by_cases h1 : env.mkdtempFails = true
    · rw [if_pos h1]
    · rw [if_neg h1]
      by_cases h2 : env.writeSourceFails = true
      · rw [if_pos h2]
      · rw [if_neg h2]
        rcases hfail with h | h | h
        · exact absurd h h1
        · exact absurd h h2
        · rw [if_pos h]

/-- C1 witness: the decoding branch at a concrete malformed input, and the
workspace-setup branch at a concrete environment whose mkdtemp raises. -/
theorem runMain_boundary_witness :
    (runMain envJsonErr).output = Output.error
      (ErrorResponse.mk jsonFailCode (invalidJsonPre ++ ("Expecting value".toList)) none) ∧
    (runMain envMkFail).output = Output.uncaught :=
  ⟨runMain_boundary.1 envJsonErr ("Expecting value".toList) rfl,
   runMain_boundary.2 envMkFail reqDemo rfl (Or.inl rfl)⟩

/-- C3: when the pdflatex binary is absent, the pipeline returns a partial
result carrying the generated markup document, with no artifact and no page
count, plus the tool-missing warning; no error is raised to the caller and no
compilation pass is attempted. -/
theorem runMain_tool_missing (env : Env) (req : Request)
    (hp : env.stdinParse = Except.ok req)
    (h1 : env.mkdtempFails = false) (h2 : env.writeSourceFails = false)
    (h3 : (truthyOpt req.bibliography && env.writeBibFails) = false)
    (habs : env.pdflatexPresent = false) :
    runMain env = RunResult.mk
      (Output.result (SuccessResponse.mk (genDoc env req)
        ((conversionPair env req).2 ++ [msgToolMissing]) emptyCitations none none))
      true true 0 := by
  have hco : compileStage env = CompileOut.mk [msgToolMissing] none none 0 := by
    simp [compileStage, habs]
  rw [runMain_ok env req hp h1 h2 h3, hco]

/-- C3 witness: a concrete request processed with pdflatex absent. -/
theorem runMain_tool_missing_witness :
    runMain envNoTool = RunResult.mk
      (Output.result (SuccessResponse.mk (genDoc envNoTool reqDemo)
        ((conversionPair envNoTool reqDemo).2 ++ [msgToolMissing]) emptyCitations none none))
      true true 0 :=
  runMain_tool_missing envNoTool reqDemo rfl rfl rfl rfl rfl

/-- C4: when the compiler is present and neither pass times out, exactly two
compilation passes are attempted, and a non-zero exit code on pass 1 is
recorded as a pdflatex warning but does not prevent pass 2 from running. -/
theorem runMain_two_passes (env : Env) (req : Request) (rc1 : Int) (out1 : List Char)
    (rc2 : Int) (out2 : List Char)
    (hp : env.stdinParse = Except.ok req)
    (h1 : env.mkdtempFails = false) (h2 : env.writeSourceFails = false)
    (h3 : (truthyOpt req.bibliography && env.writeBibFails) = false)
    (hpres : env.pdflatexPresent = true)
    (hc1 : env.pass1 = PassOutcome.completed rc1 out1)
    (hc2 : env.pass2 = PassOutcome.completed rc2 out2) :
    (runMain env).passesAttempted = 2 ∧
    (rc1 ≠ 0 → passWarn out1 ∈ outputWarnings (runMain env).output) := by
  have hpasses : (compileStage env).passes = 2 ∧
      (rc1 ≠ 0 → passWarn out1 ∈ (compileStage env).warns) := by
    cases hpd : env.pdfProduced with
    | some c =>
      constructor
      · simp [compileStage, hpres, hc1, hc2, hpd]
      · intro h
        simp [compileStage, hpres, hc1, hc2, hpd, h]
    | none =>
      constructor
      · simp [compileStage, hpres, hc1, hc2, hpd]
      · intro h
        simp [compileStage, hpres, hc1, hc2, hpd, h]
  rw [runMain_ok env req hp h1 h2 h3]
  constructor
  · exact hpasses.1
  · intro h
    exact List.mem_append_right _ (hpasses.2 h)

/-- C4 witness: a concrete environment whose first pass exits non-zero. -/
theorem runMain_two_passes_witness :
    (runMain envPassFail).passesAttempted = 2 ∧
    passWarn ("log tail".toList) ∈ outputWarnings (runMain envPassFail).output :=
  ⟨(runMain_two_passes envPassFail reqTiny 1 ("log tail".toList) 0 []
      rfl rfl rfl rfl rfl rfl rfl).1,
   (runMain_two_passes envPassFail reqTiny 1 ("log tail".toList) 0 []
      rfl rfl rfl rfl rfl rfl rfl).2 (by decide)⟩

/-- C5: after two completed passes the inclusion of the encoded artifact in
the result is determined solely by the existence of the output artifact file,
for every pair of exit codes: if the file exists the response carries its
base64 encoding, and if not, the no-artifact warning is recorded and no
artifact field is produced. -/
theorem runMain_artifact (env : Env) (req : Request) (rc1 : Int) (out1 : List Char)
    (rc2 : Int) (out2 : List Char)
    (hp : env.stdinParse = Except.ok req)
    (h1 : env.mkdtempFails = false) (h2 : env.writeSourceFails = false)
    (h3 : (truthyOpt req.bibliography && env.writeBibFails) = false)
    (hpres : env.pdflatexPresent = true)
    (hc1 : env.pass1 = PassOutcome.completed rc1 out1)
    (hc2 : env.pass2 = PassOutcome.completed rc2 out2) :
    isResultOutput (runMain env).output = true ∧
    (∀ c, env.pdfProduced = some c →
      outputPdf (runMain env).output = some (base64Encode c)) ∧
    (env.pdfProduced = none →
      outputPdf (runMain env).output = none ∧
      msgNoPdf ∈ outputWarnings (runMain env).output) := by
  rw [runMain_ok env req hp h1 h2 h3]
  refine ⟨rfl, ?_, ?_⟩
  · intro c hc
    show (compileStage env).pdf = some (base64Encode c)
    simp [compileStage, hpres, hc1, hc2, hc]
  · intro hc
    constructor
    · show (compileStage env).pdf = none
      simp [compileStage, hpres, hc1, hc2, hc]
    · refine List.mem_append_right _ ?_
      simp [compileStage, hpres, hc1, hc2, hc]

/-- C5 witness: the artifact is included exactly when the file exists, at a
concrete environment with an artifact and one without. -/
theorem runMain_artifact_witness :
    outputPdf (runMain envPdf).output = some (base64Encode pdfDemo) ∧
    outputPdf (runMain envNoPdf).output = none ∧
    msgNoPdf ∈ outputWarnings (runMain envNoPdf).output :=
  ⟨(runMain_artifact envPdf reqTiny 0 [] 0 [] rfl rfl rfl rfl rfl rfl rfl).2.1 pdfDemo rfl,
   ((runMain_artifact envNoPdf reqTiny 3 ("err".toList) 0 []
      rfl rfl rfl rfl rfl rfl rfl).2.2 rfl).1,
   ((runMain_artifact envNoPdf reqTiny 3 ("err".toList) 0 []
      rfl rfl rfl rfl rfl rfl rfl).2.2 rfl).2⟩

/-- C8: when an artifact is produced, the reported page count equals the
number of page-object markers minus the number of page-collection markers in
the artifact bytes, floored at one, and the reported count is always at least
one. -/
theorem runMain_page_count (env : Env) (req : Request) (rc1 : Int) (out1 : List Char)
    (rc2 : Int) (out2 : List Char) (c : List Nat)
    (hp : env.stdinParse = Except.ok req)
    (h1 : env.mkdtempFails = false) (h2 : env.writeSourceFails = false)
    (h3 : (truthyOpt req.bibliography && env.writeBibFails) = false)
    (hpres : env.pdflatexPresent = true)
    (hc1 : env.pass1 = PassOutcome.completed rc1 out1)
    (hc2 : env.pass2 = PassOutcome.completed rc2 out2)
    (hpdf : env.pdfProduced = some c) :
    outputPages (runMain env).output = some (pageCount c) ∧
    pageCount c = (if ((countSub pageObjMarker c : Int) - (countSub pagesMarker c : Int)) ≤ 0
      then 1
      else (countSub pageObjMarker c : Int) - (countSub pagesMarker c : Int)) ∧
    1 ≤ pageCount c := by
  refine ⟨?_, rfl, ?_⟩
  · rw [runMain_ok env req hp h1 h2 h3]
    show (compileStage env).pages = some (pageCount c)
    simp [compileStage, hpres, hc1, hc2, hpdf]
  · simp only [pageCount]
    split
    · omega
    · rename_i hd
      omega

/-- C8 witness: a concrete artifact containing two page objects and one page
collection beyond the page prefix shared with the collection marker. -/
theorem runMain_page_count_witness :
    outputPages (runMain envPdf).output = some (pageCount pdfDemo) ∧
    1 ≤ pageCount pdfDemo :=
  ⟨(runMain_page_count envPdf reqTiny 0 [] 0 [] pdfDemo
      rfl rfl rfl rfl rfl rfl rfl rfl).1,
   (runMain_page_count envPdf reqTiny 0 [] 0 [] pdfDemo
      rfl rfl rfl rfl rfl rfl rfl rfl).2.2⟩

/-- C10: every non-error response carries exactly the constant citation
summary with zero totals and an empty unresolved list, regardless of the
request and of every external outcome. -/
theorem runMain_citations (env : Env) (r : SuccessResponse)
    (h : (runMain env).output = Output.result r) :
    r.citations = emptyCitations := by
  rcases hps : env.stdinParse with m | req
  · simp only [runMain, hps] at h
    exact Output.noConfusion h
  · simp only [runMain, hps] at h
    by_cases h1 : env.mkdtempFails = true
    · rw [if_pos h1] at h
      exact Output.noConfusion h
    · rw [if_neg h1] at h
      by_cases h2 : env.writeSourceFails = true
      · rw [if_pos h2] at h
        exact Output.noConfusion h
      · rw [if_neg h2] at h
        by_cases h3 : (truthyOpt req.bibliography && env.writeBibFails) = true
        · rw [if_pos h3] at h
          exact Output.noConfusion h
        · rw [if_neg h3] at h
          injection h with h4
          rw [← h4]

/-- C10 witness: a concrete non-error response of the pipeline. -/
theorem runMain_citations_witness :
    (SuccessResponse.mk ("x".toList) [msgToolMissing] emptyCitations none none).citations
      = emptyCitations :=
  runMain_citations envC10
    (SuccessResponse.mk ("x".toList) [msgToolMissing] emptyCitations none none)
    (by decide)
